import Mathlib

/-!
# ChronoCalc calendar arithmetic: a shallow embedding

This file embeds the date logic of the ChronoCalc single-page app.  The app's
four submit handlers (`src/unnamed/part_002`, `handleDateDifferenceSubmit`,
`handleDateArithmeticSubmit`, `handleAgeFinderSubmit`,
`handlePregnancyDueDateSubmit`) call the third-party `date-fns` library for all
date math.  That library is not part of the repository, so the day/month/year
arithmetic operations are modelled here from the specification's Calendar
Arithmetic Engine (spec.md section 4.1), which pins down their semantics
exactly (proleptic Gregorian calendar, ordinal day numbers, clamped month and
year addition, anniversary-based month and year differences).  The handler
bodies, the form schemas' cross-field checks, and the result-state updates are
translated directly from the source.
-/

namespace ChronoCalc

/-- Modelled from the spec: proleptic Gregorian leap-year rule, "divisible by
4, except centuries not divisible by 400" (spec.md section 4.1). -/
def isLeapYear (y : Int) : Bool :=
  y % 4 == 0 && (y % 100 != 0 || y % 400 == 0)

/-- Modelled from the spec: number of days of month `m` (1-12) in year `y`;
February has 29 days in a leap year and 28 otherwise. -/
def daysInMonth (y : Int) : Nat → Nat
  | 2 => if isLeapYear y then 29 else 28
  | 4 => 30
  | 6 => 30
  | 9 => 30
  | 11 => 30
  | _ => 31

/-- A Gregorian calendar date with no time-of-day or timezone component
(spec.md section 3, `CalendarDate`). -/
structure CalendarDate where
  year : Int
  month : Nat
  day : Nat
deriving DecidableEq, Repr

/-- The `CalendarDate` invariant: month in 1-12 and day valid for
(year, month) (spec.md section 3). -/
def ValidDate (d : CalendarDate) : Prop :=
  1 ≤ d.month ∧ d.month ≤ 12 ∧ 1 ≤ d.day ∧ d.day ≤ daysInMonth d.year d.month

instance (d : CalendarDate) : Decidable (ValidDate d) := by
  unfold ValidDate; infer_instance

/-- Chronological strict order on calendar dates: lexicographic on
(year, month, day).  JavaScript `Date` comparison in the source
(`data.endDate >= data.startDate`, `isBefore`) is this order on the
date components, since all form dates carry the same time of day. -/
def dateLt (a b : CalendarDate) : Prop :=
  a.year < b.year ∨
    (a.year = b.year ∧ (a.month < b.month ∨ (a.month = b.month ∧ a.day < b.day)))

instance (a b : CalendarDate) : Decidable (dateLt a b) := by
  unfold dateLt; infer_instance

/-- Chronological non-strict order on calendar dates. -/
def dateLe (a b : CalendarDate) : Prop :=
  dateLt a b ∨ a = b

instance (a b : CalendarDate) : Decidable (dateLe a b) := by
  unfold dateLe; infer_instance

/-- Strict order on the (month, day) projection, ignoring the year; this is
the anniversary comparison of spec.md's glossary ("a whole month/year is
counted ... only once the day-of-month (and month, for years) of the earlier
date has been reached or passed"). -/
def mdLt (a b : CalendarDate) : Prop :=
  a.month < b.month ∨ (a.month = b.month ∧ a.day < b.day)

instance (a b : CalendarDate) : Decidable (mdLt a b) := by
  unfold mdLt; infer_instance

/-- The calendar successor of a date: the next day, rolling over month and
year boundaries. -/
def nextDay (d : CalendarDate) : CalendarDate :=
  if d.day < daysInMonth d.year d.month then ⟨d.year, d.month, d.day + 1⟩
  else if d.month < 12 then ⟨d.year, d.month + 1, 1⟩
  else ⟨d.year + 1, 1, 1⟩

/-- The calendar predecessor of a date: the previous day, rolling over month
and year boundaries. -/
def prevDay (d : CalendarDate) : CalendarDate :=
  if 1 < d.day then ⟨d.year, d.month, d.day - 1⟩
  else if 1 < d.month then ⟨d.year, d.month - 1, daysInMonth d.year (d.month - 1)⟩
  else ⟨d.year - 1, 12, 31⟩

/-- Modelled from the spec: `addDays(date, n)` returns the calendar date `n`
days later (`n` may be negative); the source calls `date-fns` `addDays`
(not part of the repository).  Rolls over month/year boundaries and leap
years (spec.md section 4.1). -/
def addDays (d : CalendarDate) (n : Int) : CalendarDate :=
  if 0 ≤ n then nextDay^[n.toNat] d else prevDay^[(-n).toNat] d

/-- Modelled from the spec: `subtractDays(date, n) = addDays(date, -n)`
(spec.md section 4.1); the source calls `date-fns` `subDays` (not part of
the repository). -/
def subDays (d : CalendarDate) (n : Int) : CalendarDate :=
  addDays d (-n)

/-- Number of days of year `y` that precede month `m`
(`daysBeforeMonth y 3 = 31 + daysInMonth y 2`, for instance). -/
def daysBeforeMonth (y : Int) : Nat → Nat
  | 0 => 0
  | 1 => 0
  | m + 1 => daysBeforeMonth y m + daysInMonth y m

/-- Number of days strictly before January 1 of year `y`, counted from the
epoch January 1 of year 1 (rata die); closed form over floor division, valid
for the whole proleptic Gregorian calendar. -/
def daysBeforeYear (y : Int) : Int :=
  365 * (y - 1) + (y - 1) / 4 - (y - 1) / 100 + (y - 1) / 400

/-- Modelled from the spec: the ordinal day number of a date, "a date's
sequential index since a fixed calendar epoch" (spec.md glossary);
`toOrdinal ⟨1, 1, 1⟩ = 1`. -/
def toOrdinal (d : CalendarDate) : Int :=
  daysBeforeYear d.year + (daysBeforeMonth d.year d.month : Int) + (d.day : Int)

/-- Modelled from the spec: `differenceInDays(a, b)` is the exact signed
count of days between `a` and `b`, positive if `b` is after `a`, computed
via ordinal day numbers (spec.md section 4.1).  The source calls `date-fns`
`differenceInDays(endDate, startDate)`, whose value is
`differenceInDays startDate endDate` in this argument convention. -/
def differenceInDays (a b : CalendarDate) : Int :=
  toOrdinal b - toOrdinal a

/-- Signed integer division truncated toward zero (for a nonnegative
divisor), as JavaScript's `Math.trunc`-style week count in `date-fns`. -/
def truncDiv (a b : Int) : Int :=
  if 0 ≤ a then a / b else -((-a) / b)

/-- Modelled from the spec: `differenceInWeeks(a, b)` is
`differenceInDays(a, b) / 7` truncated toward zero (spec.md section 4.1). -/
def differenceInWeeks (a b : CalendarDate) : Int :=
  truncDiv (differenceInDays a b) 7

/-- Modelled from the spec: adding `n` calendar months, preserving the
day-of-month and clamping it down to the target month's last valid day when
it would overflow (spec.md section 4.1 tie-break policy, the source's
`date-fns` month arithmetic). -/
def addMonths (d : CalendarDate) (n : Int) : CalendarDate :=
  let total : Int := 12 * d.year + ((d.month : Int) - 1) + n
  let y : Int := total / 12
  let m : Nat := (total % 12).toNat + 1
  ⟨y, m, min d.day (daysInMonth y m)⟩

/-- Modelled from the spec: adding `n` calendar years, clamping the
day-of-month when needed (Feb 29 plus one year gives Feb 28). -/
def addYears (d : CalendarDate) (n : Int) : CalendarDate :=
  ⟨d.year + n, d.month, min d.day (daysInMonth (d.year + n) d.month)⟩

/-- Largest `k` not exceeding the fuel such that advancing `a` by `k` clamped
months does not pass `b` (`0` when no positive `k` qualifies). -/
def monthsUpTo (a b : CalendarDate) : Nat → Nat
  | 0 => 0
  | k + 1 => if dateLe (addMonths a ((k : Int) + 1)) b then k + 1 else monthsUpTo a b k

/-- Largest `k` not exceeding the fuel such that moving `a` back by `k`
clamped months does not pass `b` going backward. -/
def monthsDownTo (a b : CalendarDate) : Nat → Nat
  | 0 => 0
  | k + 1 => if dateLe b (addMonths a (-((k : Int) + 1))) then k + 1 else monthsDownTo a b k

/-- Modelled from the spec: `differenceInMonths(a, b)` is the whole number of
calendar months between `a` and `b` such that advancing `a` by that many
months (with day clamping) does not overshoot `b`; sign follows `b` relative
to `a` (spec.md section 4.1).  The source calls `date-fns`
`differenceInMonths(endDate, startDate)` = `differenceInMonths startDate
endDate` here. -/
def differenceInMonths (a b : CalendarDate) : Int :=
  if dateLe a b then
    (monthsUpTo a b (12 * (b.year - a.year) + (b.month : Int) - (a.month : Int)).toNat : Int)
  else
    -((monthsDownTo a b (12 * (a.year - b.year) + (a.month : Int) - (b.month : Int)).toNat : Int))

/-- Modelled from the spec: `differenceInYears(a, b)` is the whole number of
calendar years between `a` and `b` by the anniversary rule: the calendar year
difference, minus one when the later date's (month, day) has not yet reached
the earlier date's (month, day) (spec.md section 4.1 and glossary; this is
also how the source's `date-fns` `differenceInYears` decides whether the
last year is complete). -/
def differenceInYears (a b : CalendarDate) : Int :=
  if dateLe a b then (b.year - a.year) - (if mdLt b a then 1 else 0)
  else -((a.year - b.year) - (if mdLt a b then 1 else 0))

/-- The `AgeDuration` result structure: a decomposed, non-overlapping
breakdown of elapsed time (spec.md section 3). -/
structure AgeDuration where
  years : Int
  months : Int
  days : Int
deriving DecidableEq, Repr

/-- Greedy decomposition of the interval from `start` to `stop`: whole
anniversary years, then whole months from the year-adjusted date, then days
from the twice-adjusted date.  This is the source's `date-fns`
`intervalToDuration({ start, end })` restricted to dates, and the spec's
`ageBreakdown` success path (spec.md section 4.1). -/
def intervalToDuration (start stop : CalendarDate) : AgeDuration :=
  let y := differenceInYears start stop
  let afterYears := addYears start y
  let m := differenceInMonths afterYears stop
  let afterMonths := addMonths afterYears m
  ⟨y, m, differenceInDays afterMonths stop⟩

/-- The engine's error taxonomy (spec.md section 7). -/
inductive EngineError
  | invalidDate
  | invalidRange
  | invalidMethod
deriving DecidableEq, Repr

/-- Modelled from the spec: `ageBreakdown(birth, asOf)` returns the greedy
years/months/days decomposition and fails with `InvalidRangeError` if `asOf`
precedes `birth` (spec.md section 4.1; the repository has no such engine
function — its form schema merely forbids future birth dates). -/
def ageBreakdown (birth asOf : CalendarDate) : Except EngineError AgeDuration :=
  if dateLt asOf birth then .error .invalidRange
  else .ok (intervalToDuration birth asOf)

/-- The pregnancy due-date calculation methods offered by the form
(`pregnancyDueDateSchema.calculationMethod` in the source). -/
inductive Method
  | lmp
  | conception
  | ivf
deriving DecidableEq, Repr

/-- IVF embryo age at transfer (`pregnancyDueDateSchema.ivfEmbryoAge`). -/
inductive EmbryoAge
  | day3
  | day5
deriving DecidableEq, Repr

/-- The due-date offsets of `handlePregnancyDueDateSubmit`
(`src/unnamed/part_002` lines 388-398): LMP + 280 days, conception + 266
days, IVF transfer + 263 (day-3 embryo) or + 261 (day-5 embryo) days; `none`
when the IVF embryo age is missing. -/
def estimateDueDate (method : Method) (referenceDate : CalendarDate)
    (ivfEmbryoAge : Option EmbryoAge) : Option CalendarDate :=
  match method with
  | .lmp => some (addDays referenceDate 280)
  | .conception => some (addDays referenceDate 266)
  | .ivf =>
      match ivfEmbryoAge with
      | some .day3 => some (addDays referenceDate 263)
      | some .day5 => some (addDays referenceDate 261)
      | none => none

/-- The date-difference result state shape
(`dateDifferenceResult` in the source). -/
structure DateDifference where
  days : Int
  weeks : Int
  months : Int
  years : Int
deriving DecidableEq, Repr

/-- The four overlapping unit differences computed by
`handleDateDifferenceSubmit` (`src/unnamed/part_002` lines 340-343); the
source passes `(endDate, startDate)` to the `date-fns` functions, which in
this file's argument convention is `differenceIn*(startDate, endDate)`. -/
def computeDateDifference (startDate endDate : CalendarDate) : DateDifference :=
  { days := differenceInDays startDate endDate
    weeks := differenceInWeeks startDate endDate
    months := differenceInMonths startDate endDate
    years := differenceInYears startDate endDate }

/-- The cross-field refinement of `dateDifferenceSchema`
(`src/unnamed/part_002` line 83): when both dates are present the end date
must be on or after the start date. -/
def dateDifferenceSchemaOk (startDate endDate : CalendarDate) : Prop :=
  dateLe startDate endDate

instance (s e : CalendarDate) : Decidable (dateDifferenceSchemaOk s e) := by
  unfold dateDifferenceSchemaOk; infer_instance

/-- The arithmetic operation selector (`dateArithmeticSchema.operation`). -/
inductive Operation
  | add
  | subtract
deriving DecidableEq, Repr

/-- The pregnancy result state shape: the estimated date plus a tag for the
method that produced it (`pregnancyDueDateResult` in the source, which keeps
a descriptive string for the method). -/
structure PregnancyEstimate where
  date : CalendarDate
  method : Method
deriving DecidableEq, Repr

/-- The `Home` component's result state: the five `useState` result cells of
the source plus the client-mount `currentDate` cell
(`src/unnamed/part_002` lines 269-285). -/
structure AppState where
  dateDifferenceResult : Option DateDifference
  arithmeticResult : Option CalendarDate
  arithmeticOperation : Option Operation
  ageResult : Option AgeDuration
  pregnancyDueDateResult : Option PregnancyEstimate
  currentDate : Option CalendarDate
deriving DecidableEq, Repr

/-- `handleDateDifferenceSubmit` (`src/unnamed/part_002` lines 337-350):
when both dates are present, store the four differences and clear the other
three results; otherwise leave the state unchanged. -/
def handleDateDifferenceSubmit (st : AppState)
    (startDate endDate : Option CalendarDate) : AppState :=
  match startDate, endDate with
  | some s, some e =>
      { st with
        dateDifferenceResult := some (computeDateDifference s e)
        arithmeticResult := none
        arithmeticOperation := none
        ageResult := none
        pregnancyDueDateResult := none }
  | _, _ => st

/-- `handleDateArithmeticSubmit` (`src/unnamed/part_002` lines 352-368):
with a base date and a day count of at least 1, store the added or
subtracted date and clear the other results; otherwise clear only the
arithmetic result and operation. -/
def handleDateArithmeticSubmit (st : AppState) (baseDate : Option CalendarDate)
    (days : Option Int) (operation : Operation) : AppState :=
  match baseDate, days with
  | some b, some n =>
      if 1 ≤ n then
        { st with
          arithmeticResult :=
            some (match operation with
                  | .add => addDays b n
                  | .subtract => subDays b n)
          arithmeticOperation := some operation
          dateDifferenceResult := none
          ageResult := none
          pregnancyDueDateResult := none }
      else
        { st with arithmeticResult := none, arithmeticOperation := none }
  | _, _ => { st with arithmeticResult := none, arithmeticOperation := none }

/-- `handleAgeFinderSubmit` (`src/unnamed/part_002` lines 370-380): with a
mounted current date and a date of birth, store the interval duration and
clear the other results; otherwise leave the state unchanged. -/
def handleAgeFinderSubmit (st : AppState)
    (dateOfBirth : Option CalendarDate) : AppState :=
  match st.currentDate, dateOfBirth with
  | some c, some dob =>
      { st with
        ageResult := some (intervalToDuration dob c)
        dateDifferenceResult := none
        arithmeticResult := none
        arithmeticOperation := none
        pregnancyDueDateResult := none }
  | _, _ => st

/-- `handlePregnancyDueDateSubmit` (`src/unnamed/part_002` lines 382-419):
compute the due date for the selected method when its inputs are present,
store it (or `none`), and clear the other three results regardless. -/
def handlePregnancyDueDateSubmit (st : AppState) (method : Method)
    (lastMenstrualPeriod conceptionDate ivfTransferDate : Option CalendarDate)
    (ivfEmbryoAge : Option EmbryoAge) : AppState :=
  let dueDate : Option CalendarDate :=
    match method with
    | .lmp => lastMenstrualPeriod.map (fun d => addDays d 280)
    | .conception => conceptionDate.map (fun d => addDays d 266)
    | .ivf =>
        match ivfTransferDate, ivfEmbryoAge with
        | some d, some age =>
            some (addDays d (match age with | .day3 => 263 | .day5 => 261))
        | _, _ => none
  { st with
    pregnancyDueDateResult := dueDate.map (fun d => ⟨d, method⟩)
    dateDifferenceResult := none
    arithmeticResult := none
    arithmeticOperation := none
    ageResult := none }

/-- How many of the four result cells are populated. -/
def resultCount (st : AppState) : Nat :=
  (if st.dateDifferenceResult.isSome then 1 else 0) +
    (if st.arithmeticResult.isSome then 1 else 0) +
    (if st.ageResult.isSome then 1 else 0) +
    (if st.pregnancyDueDateResult.isSome then 1 else 0)

/-- At most one of the four result cells is populated. -/
def atMostOneResult (st : AppState) : Prop :=
  resultCount st ≤ 1

instance (st : AppState) : Decidable (atMostOneResult st) := by
  unfold atMostOneResult; infer_instance

end ChronoCalc

namespace ChronoCalc

set_option maxRecDepth 8000

/-! ## Basic facts about month lengths and ordinal day numbers -/

theorem daysInMonth_bounds (y : Int) (m : Nat) :
    28 ≤ daysInMonth y m ∧ daysInMonth y m ≤ 31 := by
  unfold daysInMonth
  split <;> first | omega | (split <;> omega)

theorem daysBeforeMonth_succ (y : Int) (m : Nat) (hm : 1 ≤ m) :
    daysBeforeMonth y (m + 1) = daysBeforeMonth y m + daysInMonth y m := by
  obtain ⟨k, rfl⟩ : ∃ k, m = k + 1 := ⟨m - 1, by omega⟩
  rfl

theorem daysBeforeMonth_mono (y : Int) :
    ∀ m2 m1 : Nat, 1 ≤ m1 → m1 < m2 →
      daysBeforeMonth y m1 + daysInMonth y m1 ≤ daysBeforeMonth y m2 := by
  intro m2
  induction m2 with
  | zero => omega
  | succ k ih =>
      intro m1 h1 h2
      rcases Nat.lt_or_ge m1 k with hk | hk
      · have hk1 : 1 ≤ k := by omega
        have := ih m1 h1 hk
        rw [daysBeforeMonth_succ y k hk1]
        omega
      · have : m1 = k := by omega
        subst this
        rw [daysBeforeMonth_succ y m1 h1]

theorem daysBeforeMonth_13 (y : Int) :
    daysBeforeMonth y 13 = 337 + daysInMonth y 2 := by
  have h3 : daysBeforeMonth y 3 = 31 + daysInMonth y 2 := by
    rw [daysBeforeMonth_succ y 2 (by omega)]; rfl
  have h4 : daysBeforeMonth y 4 = daysBeforeMonth y 3 + 31 := daysBeforeMonth_succ y 3 (by omega)
  have h5 : daysBeforeMonth y 5 = daysBeforeMonth y 4 + 30 := daysBeforeMonth_succ y 4 (by omega)
  have h6 : daysBeforeMonth y 6 = daysBeforeMonth y 5 + 31 := daysBeforeMonth_succ y 5 (by omega)
  have h7 : daysBeforeMonth y 7 = daysBeforeMonth y 6 + 30 := daysBeforeMonth_succ y 6 (by omega)
  have h8 : daysBeforeMonth y 8 = daysBeforeMonth y 7 + 31 := daysBeforeMonth_succ y 7 (by omega)
  have h9 : daysBeforeMonth y 9 = daysBeforeMonth y 8 + 31 := daysBeforeMonth_succ y 8 (by omega)
  have h10 : daysBeforeMonth y 10 = daysBeforeMonth y 9 + 30 := daysBeforeMonth_succ y 9 (by omega)
  have h11 : daysBeforeMonth y 11 = daysBeforeMonth y 10 + 31 := daysBeforeMonth_succ y 10 (by omega)
  have h12 : daysBeforeMonth y 12 = daysBeforeMonth y 11 + 30 := daysBeforeMonth_succ y 11 (by omega)
  have h13 : daysBeforeMonth y 13 = daysBeforeMonth y 12 + 31 := daysBeforeMonth_succ y 12 (by omega)
  omega

/-- Total number of days of year `y`. -/
def daysInYear (y : Int) : Nat :=
  if isLeapYear y then 366 else 365

theorem daysInYear_eq (y : Int) : daysInYear y = 337 + daysInMonth y 2 := by
  have h2 : daysInMonth y 2 = if isLeapYear y then 29 else 28 := rfl
  unfold daysInYear
  cases h : isLeapYear y <;> simp [h] at h2 ⊢ <;> omega

theorem daysBeforeMonth_12_add_31 (y : Int) :
    daysBeforeMonth y 12 + 31 = daysInYear y := by
  have h13 : daysBeforeMonth y 13 = daysBeforeMonth y 12 + 31 := daysBeforeMonth_succ y 12 (by omega)
  have := daysBeforeMonth_13 y
  have := daysInYear_eq y
  omega

theorem daysBeforeMonth_day_le (y : Int) (m d : Nat) (h1 : 1 ≤ m) (h2 : m ≤ 12)
    (h3 : d ≤ daysInMonth y m) : daysBeforeMonth y m + d ≤ daysInYear y := by
  rcases Nat.lt_or_ge m 12 with hm | hm
  · have := daysBeforeMonth_mono y 12 m h1 hm
    have := daysBeforeMonth_12_add_31 y
    have := daysInMonth_bounds y 12
    omega
  · have : m = 12 := by omega
    subst this
    have h31 : daysInMonth y 12 = 31 := rfl
    have := daysBeforeMonth_12_add_31 y
    omega

theorem isLeapYear_iff (y : Int) :
    isLeapYear y = true ↔ (y % 4 = 0 ∧ (¬ y % 100 = 0 ∨ y % 400 = 0)) := by
  unfold isLeapYear
  simp [Bool.and_eq_true, Bool.or_eq_true]

theorem daysBeforeYear_succ (y : Int) :
    daysBeforeYear (y + 1) = daysBeforeYear y + (daysInYear y : Int) := by
  have hiff := isLeapYear_iff y
  unfold daysBeforeYear daysInYear
  cases h : isLeapYear y
  · rw [h] at hiff
    simp only [Bool.false_eq_true, false_iff] at hiff
    simp only [Bool.false_eq_true, if_false]
    push_cast
    omega
  · rw [h] at hiff
    simp only [true_iff] at hiff
    simp only [if_true]
    push_cast
    omega

theorem daysInYear_ge (y : Int) : 365 ≤ daysInYear y := by
  unfold daysInYear; split <;> omega

theorem daysBeforeYear_mono {y1 y2 : Int} (h : y1 < y2) :
    daysBeforeYear y1 + (daysInYear y1 : Int) ≤ daysBeforeYear y2 := by
  obtain ⟨n, rfl⟩ : ∃ n : Nat, y2 = y1 + 1 + n := ⟨(y2 - y1 - 1).toNat, by omega⟩
  clear h
  induction n with
  | zero =>
      have h := daysBeforeYear_succ y1
      simp only [Nat.cast_zero, add_zero]
      omega
  | succ k ih =>
      have hstep := daysBeforeYear_succ (y1 + 1 + k)
      have hge := daysInYear_ge (y1 + 1 + k)
      have : y1 + 1 + ((k : Int) + 1) = (y1 + 1 + k) + 1 := by ring
      rw [show ((k + 1 : Nat) : Int) = (k : Int) + 1 by push_cast; ring, this, hstep]
      omega

end ChronoCalc

namespace ChronoCalc

/-! ## The chronological order and ordinal day numbers -/

theorem validDate_def (d : CalendarDate) :
    ValidDate d ↔
      (1 ≤ d.month ∧ d.month ≤ 12 ∧ 1 ≤ d.day ∧ d.day ≤ daysInMonth d.year d.month) :=
  Iff.rfl

theorem dateLt_trichotomy (a b : CalendarDate) : dateLt a b ∨ a = b ∨ dateLt b a := by
  obtain ⟨y1, m1, d1⟩ := a
  obtain ⟨y2, m2, d2⟩ := b
  simp only [dateLt, CalendarDate.mk.injEq]
  omega

theorem not_dateLe_of_dateLt {a b : CalendarDate} (h : dateLt a b) : ¬ dateLe b a := by
  obtain ⟨y1, m1, d1⟩ := a
  obtain ⟨y2, m2, d2⟩ := b
  simp only [dateLt, dateLe, CalendarDate.mk.injEq] at *
  omega

theorem dateLt_of_not_dateLe {a b : CalendarDate} (h : ¬ dateLe a b) : dateLt b a := by
  obtain ⟨y1, m1, d1⟩ := a
  obtain ⟨y2, m2, d2⟩ := b
  simp only [dateLt, dateLe, CalendarDate.mk.injEq] at *
  omega

theorem toOrdinal_lt_of_dateLt {a b : CalendarDate} (ha : ValidDate a) (hb : ValidDate b)
    (h : dateLt a b) : toOrdinal a < toOrdinal b := by
  rw [validDate_def] at ha hb
  obtain ⟨ha1, ha2, ha3, ha4⟩ := ha
  obtain ⟨hb1, hb2, hb3, hb4⟩ := hb
  rcases h with hy | ⟨hy, hm | ⟨hm, hd⟩⟩
  · have h1 := daysBeforeMonth_day_le a.year a.month a.day ha1 ha2 ha4
    have h2 := daysBeforeYear_mono hy
    unfold toOrdinal
    omega
  · rw [hy] at ha4
    have h1 := daysBeforeMonth_mono b.year b.month a.month ha1 hm
    unfold toOrdinal
    rw [hy]
    omega
  · unfold toOrdinal
    rw [hy, hm]
    omega

theorem toOrdinal_le_of_dateLe {a b : CalendarDate} (ha : ValidDate a) (hb : ValidDate b)
    (h : dateLe a b) : toOrdinal a ≤ toOrdinal b := by
  rcases h with hlt | he
  · exact le_of_lt (toOrdinal_lt_of_dateLt ha hb hlt)
  · rw [he]

theorem toOrdinal_inj {a b : CalendarDate} (ha : ValidDate a) (hb : ValidDate b)
    (h : toOrdinal a = toOrdinal b) : a = b := by
  rcases dateLt_trichotomy a b with hlt | he | hgt
  · have := toOrdinal_lt_of_dateLt ha hb hlt; omega
  · exact he
  · have := toOrdinal_lt_of_dateLt hb ha hgt; omega

theorem dateLe_of_toOrdinal_le {a b : CalendarDate} (ha : ValidDate a) (hb : ValidDate b)
    (h : toOrdinal a ≤ toOrdinal b) : dateLe a b := by
  rcases dateLt_trichotomy a b with hlt | he | hgt
  · exact Or.inl hlt
  · exact Or.inr he
  · have := toOrdinal_lt_of_dateLt hb ha hgt; omega

/-! ## Successor and predecessor days -/

theorem validDate_nextDay {d : CalendarDate} (h : ValidDate d) : ValidDate (nextDay d) := by
  rw [validDate_def] at h
  obtain ⟨h1, h2, h3, h4⟩ := h
  unfold nextDay
  split_ifs with hd hm
  · rw [validDate_def]
    simp only
    omega
  · rw [validDate_def]
    simp only
    have := daysInMonth_bounds d.year (d.month + 1)
    omega
  · rw [validDate_def]
    simp only
    have h31 : daysInMonth (d.year + 1) 1 = 31 := rfl
    omega

theorem validDate_prevDay {d : CalendarDate} (h : ValidDate d) : ValidDate (prevDay d) := by
  rw [validDate_def] at h
  obtain ⟨h1, h2, h3, h4⟩ := h
  unfold prevDay
  split_ifs with hd hm
  · rw [validDate_def]
    simp only
    omega
  · rw [validDate_def]
    simp only
    have := daysInMonth_bounds d.year (d.month - 1)
    omega
  · rw [validDate_def]
    simp only
    have h31 : daysInMonth (d.year - 1) 12 = 31 := rfl
    omega

theorem toOrdinal_nextDay {d : CalendarDate} (h : ValidDate d) :
    toOrdinal (nextDay d) = toOrdinal d + 1 := by
  rw [validDate_def] at h
  obtain ⟨h1, h2, h3, h4⟩ := h
  unfold nextDay
  split_ifs with hd hm
  · unfold toOrdinal
    simp only
    omega
  · unfold toOrdinal
    simp only
    have hrec := daysBeforeMonth_succ d.year d.month h1
    omega
  · have hm12 : d.month = 12 := by omega
    have h31 : daysInMonth d.year 12 = 31 := rfl
    unfold toOrdinal
    simp only
    have hsucc := daysBeforeYear_succ d.year
    have h12 := daysBeforeMonth_12_add_31 d.year
    have hdbm1 : daysBeforeMonth (d.year + 1) 1 = 0 := rfl
    rw [hm12] at h4 hd ⊢
    omega

theorem prevDay_nextDay {d : CalendarDate} (h : ValidDate d) : prevDay (nextDay d) = d := by
  rw [validDate_def] at h
  obtain ⟨h1, h2, h3, h4⟩ := h
  unfold nextDay
  split_ifs with hd hm
  · unfold prevDay
    rw [if_pos (show 1 < d.day + 1 by omega)]
    show (⟨d.year, d.month, d.day + 1 - 1⟩ : CalendarDate) = ⟨d.year, d.month, d.day⟩
    simp only [CalendarDate.mk.injEq, true_and, and_true, eq_self_iff_true]
    omega
  · unfold prevDay
    rw [if_neg (show ¬ (1 : Nat) < 1 by omega), if_pos (show 1 < d.month + 1 by omega)]
    rw [show d.month + 1 - 1 = d.month by omega]
    show (⟨d.year, d.month, daysInMonth d.year d.month⟩ : CalendarDate) = ⟨d.year, d.month, d.day⟩
    simp only [CalendarDate.mk.injEq, true_and, and_true, eq_self_iff_true]
    omega
  · unfold prevDay
    rw [if_neg (show ¬ (1 : Nat) < 1 by omega), if_neg (show ¬ (1 : Nat) < 1 by omega)]
    have h31 : daysInMonth d.year 12 = 31 := rfl
    have hm12 : d.month = 12 := by omega
    rw [hm12] at h4 hd
    show (⟨d.year + 1 - 1, 12, 31⟩ : CalendarDate) = ⟨d.year, d.month, d.day⟩
    simp only [CalendarDate.mk.injEq]
    refine ⟨by ring, by omega, by omega⟩

theorem nextDay_prevDay {d : CalendarDate} (h : ValidDate d) : nextDay (prevDay d) = d := by
  rw [validDate_def] at h
  obtain ⟨h1, h2, h3, h4⟩ := h
  unfold prevDay
  split_ifs with hd hm
  · unfold nextDay
    rw [if_pos (show d.day - 1 < daysInMonth d.year d.month by omega)]
    show (⟨d.year, d.month, d.day - 1 + 1⟩ : CalendarDate) = ⟨d.year, d.month, d.day⟩
    simp only [CalendarDate.mk.injEq, true_and, and_true, eq_self_iff_true]
    omega
  · unfold nextDay
    rw [if_neg (show ¬ daysInMonth d.year (d.month - 1) < daysInMonth d.year (d.month - 1) by omega),
        if_pos (show d.month - 1 < 12 by omega)]
    show (⟨d.year, d.month - 1 + 1, 1⟩ : CalendarDate) = ⟨d.year, d.month, d.day⟩
    simp only [CalendarDate.mk.injEq, true_and, and_true, eq_self_iff_true]
    omega
  · have hm1 : d.month = 1 := by omega
    have hd1 : d.day = 1 := by omega
    unfold nextDay
    have h31 : daysInMonth (d.year - 1) 12 = 31 := rfl
    rw [if_neg (show ¬ (31 : Nat) < daysInMonth (d.year - 1) 12 by omega),
        if_neg (show ¬ (12 : Nat) < 12 by omega)]
    show (⟨d.year - 1 + 1, 1, 1⟩ : CalendarDate) = ⟨d.year, d.month, d.day⟩
    simp only [CalendarDate.mk.injEq]
    refine ⟨by ring, by omega, by omega⟩

theorem validDate_nextDay_iterate {d : CalendarDate} (h : ValidDate d) (n : Nat) :
    ValidDate (nextDay^[n] d) := by
  induction n with
  | zero => simpa using h
  | succ k ih =>
      rw [Function.iterate_succ_apply']
      exact validDate_nextDay ih

theorem validDate_prevDay_iterate {d : CalendarDate} (h : ValidDate d) (n : Nat) :
    ValidDate (prevDay^[n] d) := by
  induction n with
  | zero => simpa using h
  | succ k ih =>
      rw [Function.iterate_succ_apply']
      exact validDate_prevDay ih

theorem nextDay_prevDay_iterate {d : CalendarDate} (h : ValidDate d) (n : Nat) :
    nextDay^[n] (prevDay^[n] d) = d := by
  induction n with
  | zero => rfl
  | succ k ih =>
      rw [Function.iterate_succ_apply]
      rw [Function.iterate_succ_apply']
      rw [nextDay_prevDay (validDate_prevDay_iterate h k)]
      exact ih

theorem prevDay_nextDay_iterate {d : CalendarDate} (h : ValidDate d) (n : Nat) :
    prevDay^[n] (nextDay^[n] d) = d := by
  induction n with
  | zero => rfl
  | succ k ih =>
      rw [Function.iterate_succ_apply]
      rw [Function.iterate_succ_apply']
      rw [prevDay_nextDay (validDate_nextDay_iterate h k)]
      exact ih

theorem nextDay_iterate_reach {a b : CalendarDate} (ha : ValidDate a) (hb : ValidDate b)
    (h : toOrdinal a ≤ toOrdinal b) :
    nextDay^[(toOrdinal b - toOrdinal a).toNat] a = b := by
  obtain ⟨n, hn⟩ : ∃ n : Nat, toOrdinal b = toOrdinal a + n :=
    ⟨(toOrdinal b - toOrdinal a).toNat, by omega⟩
  rw [show (toOrdinal b - toOrdinal a).toNat = n by omega]
  clear h
  induction n generalizing a with
  | zero =>
      simpa using toOrdinal_inj ha hb (by push_cast at hn; omega)
  | succ k ih =>
      rw [Function.iterate_succ_apply]
      refine ih (validDate_nextDay ha) ?_
      rw [toOrdinal_nextDay ha]
      push_cast at hn ⊢
      omega

theorem addDays_eq_of_toOrdinal {a b : CalendarDate} {n : Int} (ha : ValidDate a)
    (hb : ValidDate b) (h : toOrdinal b = toOrdinal a + n) : addDays a n = b := by
  unfold addDays
  rcases le_or_lt 0 n with hn | hn
  · rw [if_pos hn]
    rw [show n.toNat = (toOrdinal b - toOrdinal a).toNat by omega]
    exact nextDay_iterate_reach ha hb (by omega)
  · rw [if_neg (by omega)]
    have hreach := nextDay_iterate_reach hb ha (by omega)
    have h2 := prevDay_nextDay_iterate hb (toOrdinal a - toOrdinal b).toNat
    rw [hreach] at h2
    rw [show (-n).toNat = (toOrdinal a - toOrdinal b).toNat by omega]
    exact h2

theorem validDate_addDays {d : CalendarDate} (h : ValidDate d) (n : Int) :
    ValidDate (addDays d n) := by
  unfold addDays
  split_ifs
  · exact validDate_nextDay_iterate h _
  · exact validDate_prevDay_iterate h _

end ChronoCalc

namespace ChronoCalc

/-! ## Day-level claims -/

/-- C1: For every valid CalendarDate d, estimateDueDate with the LMP method
returns addDays(d, 280); in particular estimateDueDate('lmp', 2024-01-01)
= 2024-10-07 (280 days later). -/
theorem C1_lmp_due_date (d : CalendarDate) (e : Option EmbryoAge) (h : ValidDate d) :
    estimateDueDate .lmp d e = some (addDays d 280) ∧
    estimateDueDate .lmp ⟨2024, 1, 1⟩ none = some ⟨2024, 10, 7⟩ := by
  refine ⟨rfl, ?_⟩
  show some (addDays ⟨2024, 1, 1⟩ 280) = some ⟨2024, 10, 7⟩
  rw [@addDays_eq_of_toOrdinal ⟨2024, 1, 1⟩ ⟨2024, 10, 7⟩ 280 (by decide) (by decide) (by decide)]

/-- Witness for C1 at the concrete LMP date 2024-01-01. -/
theorem C1_witness :
    estimateDueDate .lmp ⟨2024, 1, 1⟩ none = some (addDays ⟨2024, 1, 1⟩ 280) ∧
    estimateDueDate .lmp ⟨2024, 1, 1⟩ none = some ⟨2024, 10, 7⟩ :=
  C1_lmp_due_date ⟨2024, 1, 1⟩ none (by decide)

/-- C2: ageBreakdown(birth, asOf) fails with InvalidRangeError whenever asOf
is earlier than birth, and succeeds (with the greedy decomposition)
otherwise. -/
theorem C2_ageBreakdown_range (birth asOf : CalendarDate)
    (hb : ValidDate birth) (ha : ValidDate asOf) :
    (dateLt asOf birth → ageBreakdown birth asOf = .error .invalidRange) ∧
    (¬ dateLt asOf birth →
      ageBreakdown birth asOf = .ok (intervalToDuration birth asOf)) := by
  unfold ageBreakdown
  constructor
  · intro h; rw [if_pos h]
  · intro h; rw [if_neg h]

/-- Witness for C2: a reversed pair fails, an ordered pair succeeds. -/
theorem C2_witness :
    ageBreakdown ⟨2024, 1, 2⟩ ⟨2024, 1, 1⟩ = .error .invalidRange ∧
    ageBreakdown ⟨2024, 1, 1⟩ ⟨2024, 1, 2⟩ =
      .ok (intervalToDuration ⟨2024, 1, 1⟩ ⟨2024, 1, 2⟩) :=
  ⟨(C2_ageBreakdown_range ⟨2024, 1, 2⟩ ⟨2024, 1, 1⟩ (by decide) (by decide)).1 (by decide),
   (C2_ageBreakdown_range ⟨2024, 1, 1⟩ ⟨2024, 1, 2⟩ (by decide) (by decide)).2 (by decide)⟩

/-- C4: for all valid dates, swapping the two inputs negates
differenceInDays and differenceInWeeks exactly. -/
theorem C4_swap_negates (a b : CalendarDate) (ha : ValidDate a) (hb : ValidDate b) :
    differenceInDays a b = -differenceInDays b a ∧
    differenceInWeeks a b = -differenceInWeeks b a := by
  constructor
  · unfold differenceInDays; ring
  · unfold differenceInWeeks truncDiv differenceInDays
    split_ifs <;> omega

/-- Witness for C4 on the spec's scenario pair 2024-01-01 and 2024-03-01. -/
theorem C4_witness :
    differenceInDays ⟨2024, 3, 1⟩ ⟨2024, 1, 1⟩ = -differenceInDays ⟨2024, 1, 1⟩ ⟨2024, 3, 1⟩ ∧
    differenceInWeeks ⟨2024, 3, 1⟩ ⟨2024, 1, 1⟩ = -differenceInWeeks ⟨2024, 1, 1⟩ ⟨2024, 3, 1⟩ :=
  C4_swap_negates ⟨2024, 3, 1⟩ ⟨2024, 1, 1⟩ (by decide) (by decide)

/-- C5: addDays(subtractDays(a, n), n) = a for every valid a and every
integer n (the source's subDays is subtractDays). -/
theorem C5_roundtrip (a : CalendarDate) (n : Int) (h : ValidDate a) :
    addDays (subDays a n) n = a := by
  unfold subDays addDays
  rcases lt_trichotomy n 0 with hn | hn | hn
  · rw [if_pos (show (0 : Int) ≤ -n by omega), if_neg (show ¬ (0 : Int) ≤ n by omega)]
    exact prevDay_nextDay_iterate h _
  · subst hn
    norm_num
  · rw [if_neg (show ¬ (0 : Int) ≤ -n by omega), if_pos (le_of_lt hn), neg_neg]
    exact nextDay_prevDay_iterate h _

/-- Witness for C5 at a leap-day date and n = 3. -/
theorem C5_witness : addDays (subDays ⟨2024, 2, 29⟩ 3) 3 = ⟨2024, 2, 29⟩ :=
  C5_roundtrip ⟨2024, 2, 29⟩ 3 (by decide)

/-- C6: differenceInWeeks is differenceInDays divided by 7 truncated toward
zero (characterized by the truncating quotient inequalities); in particular
a 400-day gap yields weeks = 57 and days = 400. -/
theorem C6_weeks_truncation (a b : CalendarDate) (ha : ValidDate a) (hb : ValidDate b) :
    differenceInWeeks a b = truncDiv (differenceInDays a b) 7 ∧
    (0 ≤ differenceInDays a b →
      7 * differenceInWeeks a b ≤ differenceInDays a b ∧
      differenceInDays a b < 7 * differenceInWeeks a b + 7) ∧
    (differenceInDays a b < 0 →
      differenceInDays a b ≤ 7 * differenceInWeeks a b ∧
      7 * differenceInWeeks a b - 7 < differenceInDays a b) ∧
    differenceInDays ⟨2024, 1, 1⟩ ⟨2025, 2, 4⟩ = 400 ∧
    differenceInWeeks ⟨2024, 1, 1⟩ ⟨2025, 2, 4⟩ = 57 := by
  refine ⟨rfl, ?_, ?_, by decide, by decide⟩
  · intro h
    unfold differenceInWeeks truncDiv
    rw [if_pos h]
    constructor <;> omega
  · intro h
    unfold differenceInWeeks truncDiv
    rw [if_neg (by omega)]
    constructor <;> omega

/-- Witness for C6 on the 400-day pair. -/
theorem C6_witness :
    differenceInWeeks ⟨2024, 1, 1⟩ ⟨2025, 2, 4⟩ =
      truncDiv (differenceInDays ⟨2024, 1, 1⟩ ⟨2025, 2, 4⟩) 7 ∧
    (0 ≤ differenceInDays ⟨2024, 1, 1⟩ ⟨2025, 2, 4⟩ →
      7 * differenceInWeeks ⟨2024, 1, 1⟩ ⟨2025, 2, 4⟩ ≤
        differenceInDays ⟨2024, 1, 1⟩ ⟨2025, 2, 4⟩ ∧
      differenceInDays ⟨2024, 1, 1⟩ ⟨2025, 2, 4⟩ <
        7 * differenceInWeeks ⟨2024, 1, 1⟩ ⟨2025, 2, 4⟩ + 7) ∧
    (differenceInDays ⟨2024, 1, 1⟩ ⟨2025, 2, 4⟩ < 0 →
      differenceInDays ⟨2024, 1, 1⟩ ⟨2025, 2, 4⟩ ≤
        7 * differenceInWeeks ⟨2024, 1, 1⟩ ⟨2025, 2, 4⟩ ∧
      7 * differenceInWeeks ⟨2024, 1, 1⟩ ⟨2025, 2, 4⟩ - 7 <
        differenceInDays ⟨2024, 1, 1⟩ ⟨2025, 2, 4⟩) ∧
    differenceInDays ⟨2024, 1, 1⟩ ⟨2025, 2, 4⟩ = 400 ∧
    differenceInWeeks ⟨2024, 1, 1⟩ ⟨2025, 2, 4⟩ = 57 :=
  C6_weeks_truncation ⟨2024, 1, 1⟩ ⟨2025, 2, 4⟩ (by decide) (by decide)

/-- C8 (amended): estimateDueDate adds 266 days for conception, 263 for an
IVF day-3 transfer and 261 for an IVF day-5 transfer; in particular
estimateDueDate('ivf', 2024-01-01, 'day5') = 2024-09-18 (not 2024-09-17 as
the spec's scenario states). -/
theorem C8_due_date_offsets (d : CalendarDate) (e : Option EmbryoAge) (h : ValidDate d) :
    estimateDueDate .conception d e = some (addDays d 266) ∧
    estimateDueDate .ivf d (some .day3) = some (addDays d 263) ∧
    estimateDueDate .ivf d (some .day5) = some (addDays d 261) ∧
    estimateDueDate .ivf ⟨2024, 1, 1⟩ (some .day5) = some ⟨2024, 9, 18⟩ := by
  refine ⟨rfl, rfl, rfl, ?_⟩
  show some (addDays ⟨2024, 1, 1⟩ 261) = some ⟨2024, 9, 18⟩
  rw [@addDays_eq_of_toOrdinal ⟨2024, 1, 1⟩ ⟨2024, 9, 18⟩ 261 (by decide) (by decide) (by decide)]

/-- Witness for C8 at the concrete transfer date 2024-01-01. -/
theorem C8_witness :
    estimateDueDate .conception ⟨2024, 1, 1⟩ none = some (addDays ⟨2024, 1, 1⟩ 266) ∧
    estimateDueDate .ivf ⟨2024, 1, 1⟩ (some .day3) = some (addDays ⟨2024, 1, 1⟩ 263) ∧
    estimateDueDate .ivf ⟨2024, 1, 1⟩ (some .day5) = some (addDays ⟨2024, 1, 1⟩ 261) ∧
    estimateDueDate .ivf ⟨2024, 1, 1⟩ (some .day5) = some ⟨2024, 9, 18⟩ :=
  C8_due_date_offsets ⟨2024, 1, 1⟩ none (by decide)

/-- C8 counterexample: the claim's concrete scenario is false — the 261-day
offset from 2024-01-01 lands on 2024-09-18, not 2024-09-17. -/
theorem C8_counterexample :
    estimateDueDate .ivf ⟨2024, 1, 1⟩ (some .day5) ≠ some ⟨2024, 9, 17⟩ := by
  have h18 : estimateDueDate .ivf ⟨2024, 1, 1⟩ (some .day5) = some ⟨2024, 9, 18⟩ := by
    show some (addDays ⟨2024, 1, 1⟩ 261) = some ⟨2024, 9, 18⟩
    rw [@addDays_eq_of_toOrdinal ⟨2024, 1, 1⟩ ⟨2024, 9, 18⟩ 261 (by decide) (by decide) (by decide)]
  intro hc
  rw [h18] at hc
  exact absurd hc (by decide)

end ChronoCalc

namespace ChronoCalc

/-! ## Clamped month and year arithmetic -/

theorem dateLe_iff_not_lt (a b : CalendarDate) : dateLe a b ↔ ¬ dateLt b a := by
  obtain ⟨y1, m1, d1⟩ := a
  obtain ⟨y2, m2, d2⟩ := b
  simp only [dateLe, dateLt, CalendarDate.mk.injEq]
  omega

theorem addMonths_def (d : CalendarDate) (n : Int) :
    addMonths d n = ⟨(12 * d.year + ((d.month : Int) - 1) + n) / 12,
      ((12 * d.year + ((d.month : Int) - 1) + n) % 12).toNat + 1,
      min d.day (daysInMonth ((12 * d.year + ((d.month : Int) - 1) + n) / 12)
        (((12 * d.year + ((d.month : Int) - 1) + n) % 12).toNat + 1))⟩ := rfl

theorem validDate_addMonths {d : CalendarDate} (h : ValidDate d) (n : Int) :
    ValidDate (addMonths d n) := by
  rw [validDate_def] at h
  obtain ⟨h1, h2, h3, h4⟩ := h
  rw [addMonths_def, validDate_def]
  simp only
  have hb := daysInMonth_bounds ((12 * d.year + ((d.month : Int) - 1) + n) / 12)
    (((12 * d.year + ((d.month : Int) - 1) + n) % 12).toNat + 1)
  refine ⟨by omega, by omega, by omega, by omega⟩

theorem addMonths_zero {d : CalendarDate} (h : ValidDate d) : addMonths d 0 = d := by
  rw [validDate_def] at h
  obtain ⟨h1, h2, h3, h4⟩ := h
  rw [addMonths_def]
  have hy : (12 * d.year + ((d.month : Int) - 1) + 0) / 12 = d.year := by omega
  have hm : ((12 * d.year + ((d.month : Int) - 1) + 0) % 12).toNat + 1 = d.month := by omega
  rw [hy, hm]
  show (⟨d.year, d.month, min d.day (daysInMonth d.year d.month)⟩ : CalendarDate) =
    ⟨d.year, d.month, d.day⟩
  simp only [CalendarDate.mk.injEq, true_and, and_true, eq_self_iff_true]
  omega

theorem monthsUpTo_no_overshoot {a b : CalendarDate} (ha : ValidDate a) (hab : dateLe a b) :
    ∀ fuel, dateLe (addMonths a (monthsUpTo a b fuel)) b := by
  intro fuel
  induction fuel with
  | zero =>
      show dateLe (addMonths a ((0 : Nat) : Int)) b
      rw [show ((0 : Nat) : Int) = 0 by norm_num, addMonths_zero ha]
      exact hab
  | succ k ih =>
      unfold monthsUpTo
      split_ifs with hc
      · push_cast
        exact hc
      · exact ih

theorem monthsUpTo_max (a b : CalendarDate) :
    ∀ fuel, monthsUpTo a b fuel = fuel ∨
      ¬ dateLe (addMonths a ((monthsUpTo a b fuel : Int) + 1)) b := by
  intro fuel
  induction fuel with
  | zero => exact Or.inl rfl
  | succ k ih =>
      unfold monthsUpTo
      split_ifs with hc
      · exact Or.inl rfl
      · rcases ih with he | hlt
        · rw [he]
          refine Or.inr ?_
          push_cast
          exact hc
        · exact Or.inr hlt

theorem monthsDownTo_no_overshoot {a b : CalendarDate} (ha : ValidDate a)
    (hab : dateLe b a) : ∀ fuel, dateLe b (addMonths a (-(monthsDownTo a b fuel : Int))) := by
  intro fuel
  induction fuel with
  | zero =>
      show dateLe b (addMonths a (-((0 : Nat) : Int)))
      rw [show (-((0 : Nat) : Int)) = 0 by norm_num, addMonths_zero ha]
      exact hab
  | succ k ih =>
      unfold monthsDownTo
      split_ifs with hc
      · push_cast
        exact hc
      · exact ih

theorem monthsDownTo_max (a b : CalendarDate) :
    ∀ fuel, monthsDownTo a b fuel = fuel ∨
      ¬ dateLe b (addMonths a (-((monthsDownTo a b fuel : Int) + 1))) := by
  intro fuel
  induction fuel with
  | zero => exact Or.inl rfl
  | succ k ih =>
      unfold monthsDownTo
      split_ifs with hc
      · exact Or.inl rfl
      · rcases ih with he | hlt
        · rw [he]
          refine Or.inr ?_
          push_cast
          exact hc
        · exact Or.inr hlt

theorem monthsUp_boundary {a b : CalendarDate} (ha : ValidDate a) (hb : ValidDate b) :
    ¬ dateLe (addMonths a (12 * (b.year - a.year) + (b.month : Int) - (a.month : Int) + 1)) b := by
  rw [validDate_def] at ha hb
  obtain ⟨ha1, ha2, ha3, ha4⟩ := ha
  obtain ⟨hb1, hb2, hb3, hb4⟩ := hb
  rw [addMonths_def]
  apply not_dateLe_of_dateLt
  unfold dateLt
  simp only
  omega

theorem monthsDown_boundary {a b : CalendarDate} (ha : ValidDate a) (hb : ValidDate b) :
    ¬ dateLe b
      (addMonths a (-(12 * (a.year - b.year) + (a.month : Int) - (b.month : Int) + 1))) := by
  rw [validDate_def] at ha hb
  obtain ⟨ha1, ha2, ha3, ha4⟩ := ha
  obtain ⟨hb1, hb2, hb3, hb4⟩ := hb
  rw [addMonths_def]
  rw [dateLe_iff_not_lt, not_not]
  unfold dateLt
  simp only
  omega

theorem addMonths_diffMonths_le {a b : CalendarDate} (ha : ValidDate a) (hab : dateLe a b) :
    dateLe (addMonths a (differenceInMonths a b)) b := by
  unfold differenceInMonths
  rw [if_pos hab]
  exact monthsUpTo_no_overshoot ha hab _

theorem validDate_addYears {d : CalendarDate} (h : ValidDate d) (n : Int) :
    ValidDate (addYears d n) := by
  rw [validDate_def] at h
  obtain ⟨h1, h2, h3, h4⟩ := h
  unfold addYears
  rw [validDate_def]
  simp only
  have hb := daysInMonth_bounds (d.year + n) d.month
  refine ⟨h1, h2, by omega, by omega⟩

theorem addYears_diffYears_le {a b : CalendarDate} (ha : ValidDate a) (hb : ValidDate b)
    (hab : dateLe a b) : dateLe (addYears a (differenceInYears a b)) b := by
  have hab2 := hab
  rw [dateLe_iff_not_lt] at hab2
  have ha2 := ha
  rw [validDate_def] at ha2
  obtain ⟨ha3, ha4, ha5, ha6⟩ := ha2
  have hb2 := hb
  rw [validDate_def] at hb2
  obtain ⟨hb3, hb4, hb5, hb6⟩ := hb2
  unfold differenceInYears
  rw [if_pos hab]
  rw [dateLe_iff_not_lt]
  by_cases hmd : mdLt b a
  · rw [if_pos hmd]
    unfold mdLt at hmd
    unfold dateLt at hab2 ⊢
    unfold addYears
    simp only
    omega
  · rw [if_neg hmd]
    unfold mdLt at hmd
    unfold dateLt at hab2 ⊢
    unfold addYears
    simp only
    have hmin := Nat.min_le_left a.day
      (daysInMonth (a.year + (b.year - a.year - 0)) a.month)
    omega

end ChronoCalc

namespace ChronoCalc

/-- C3: differenceInMonths(a, b) is the whole number of calendar months, with
sign following b relative to a, such that advancing a by that many months
(preserving the day-of-month, clamping to the target month's last valid day)
does not overshoot b — and one more month in b's direction does overshoot;
in particular advancing 2024-01-31 by one month yields 2024-02-29. -/
theorem C3_months_characterization (a b : CalendarDate) (ha : ValidDate a)
    (hb : ValidDate b) :
    (dateLe a b →
      0 ≤ differenceInMonths a b ∧
      dateLe (addMonths a (differenceInMonths a b)) b ∧
      ¬ dateLe (addMonths a (differenceInMonths a b + 1)) b) ∧
    (¬ dateLe a b →
      differenceInMonths a b ≤ 0 ∧
      dateLe b (addMonths a (differenceInMonths a b)) ∧
      ¬ dateLe b (addMonths a (differenceInMonths a b - 1))) ∧
    addMonths ⟨2024, 1, 31⟩ 1 = ⟨2024, 2, 29⟩ := by
  have ha2 := ha
  rw [validDate_def] at ha2
  obtain ⟨ha3, ha4, ha5, ha6⟩ := ha2
  have hb2 := hb
  rw [validDate_def] at hb2
  obtain ⟨hb3, hb4, hb5, hb6⟩ := hb2
  refine ⟨?_, ?_, by decide⟩
  · intro hab
    have hD : 0 ≤ 12 * (b.year - a.year) + (b.month : Int) - (a.month : Int) := by
      rcases hab with hlt | heq
      · unfold dateLt at hlt
        omega
      · rw [heq]
        omega
    unfold differenceInMonths
    rw [if_pos hab]
    refine ⟨by omega, monthsUpTo_no_overshoot ha hab _, ?_⟩
    rcases monthsUpTo_max a b
        (12 * (b.year - a.year) + (b.month : Int) - (a.month : Int)).toNat with he | hno
    · rw [he]
      rw [show (((12 * (b.year - a.year) + (b.month : Int) - (a.month : Int)).toNat : Int) + 1)
          = 12 * (b.year - a.year) + (b.month : Int) - (a.month : Int) + 1 by omega]
      exact monthsUp_boundary ha hb
    · exact hno
  · intro hab
    have hba : dateLt b a := dateLt_of_not_dateLe hab
    have hba2 : dateLe b a := Or.inl hba
    have hD : 0 ≤ 12 * (a.year - b.year) + (a.month : Int) - (b.month : Int) := by
      unfold dateLt at hba
      omega
    unfold differenceInMonths
    rw [if_neg hab]
    refine ⟨by omega, monthsDownTo_no_overshoot ha hba2 _, ?_⟩
    rcases monthsDownTo_max a b
        (12 * (a.year - b.year) + (a.month : Int) - (b.month : Int)).toNat with he | hno
    · rw [he]
      rw [show (-(((12 * (a.year - b.year) + (a.month : Int) - (b.month : Int)).toNat : Int)) - 1)
          = -(12 * (a.year - b.year) + (a.month : Int) - (b.month : Int) + 1) by omega]
      exact monthsDown_boundary ha hb
    · have hgen : ∀ x : Int, -x - 1 = -(x + 1) := fun x => by ring
      rw [hgen]
      exact hno

/-- Witness for C3 on the leap-clamp pair 2024-01-31 and 2024-02-29. -/
theorem C3_witness :
    (dateLe ⟨2024, 1, 31⟩ ⟨2024, 2, 29⟩ →
      0 ≤ differenceInMonths ⟨2024, 1, 31⟩ ⟨2024, 2, 29⟩ ∧
      dateLe (addMonths ⟨2024, 1, 31⟩ (differenceInMonths ⟨2024, 1, 31⟩ ⟨2024, 2, 29⟩))
        ⟨2024, 2, 29⟩ ∧
      ¬ dateLe (addMonths ⟨2024, 1, 31⟩ (differenceInMonths ⟨2024, 1, 31⟩ ⟨2024, 2, 29⟩ + 1))
        ⟨2024, 2, 29⟩) ∧
    (¬ dateLe ⟨2024, 1, 31⟩ ⟨2024, 2, 29⟩ →
      differenceInMonths ⟨2024, 1, 31⟩ ⟨2024, 2, 29⟩ ≤ 0 ∧
      dateLe ⟨2024, 2, 29⟩
        (addMonths ⟨2024, 1, 31⟩ (differenceInMonths ⟨2024, 1, 31⟩ ⟨2024, 2, 29⟩)) ∧
      ¬ dateLe ⟨2024, 2, 29⟩
        (addMonths ⟨2024, 1, 31⟩ (differenceInMonths ⟨2024, 1, 31⟩ ⟨2024, 2, 29⟩ - 1))) ∧
    addMonths ⟨2024, 1, 31⟩ 1 = ⟨2024, 2, 29⟩ :=
  C3_months_characterization ⟨2024, 1, 31⟩ ⟨2024, 2, 29⟩ (by decide) (by decide)

/-- C7: for every valid pair with birth ≤ asOf, ageBreakdown succeeds and its
AgeDuration reconstructs the interval exactly: adding its years, then its
months, then its days sequentially to birth yields asOf. -/
theorem C7_age_reconstruction (birth asOf : CalendarDate) (hbv : ValidDate birth)
    (hav : ValidDate asOf) (h : dateLe birth asOf) :
    ageBreakdown birth asOf = .ok (intervalToDuration birth asOf) ∧
    addDays
      (addMonths (addYears birth (intervalToDuration birth asOf).years)
        (intervalToDuration birth asOf).months)
      (intervalToDuration birth asOf).days = asOf := by
  constructor
  · unfold ageBreakdown
    rw [if_neg ((dateLe_iff_not_lt birth asOf).mp h)]
  · have hy := addYears_diffYears_le hbv hav h
    have hvy : ValidDate (addYears birth (differenceInYears birth asOf)) :=
      validDate_addYears hbv _
    have hm := addMonths_diffMonths_le hvy hy
    have hvm : ValidDate
        (addMonths (addYears birth (differenceInYears birth asOf))
          (differenceInMonths (addYears birth (differenceInYears birth asOf)) asOf)) :=
      validDate_addMonths hvy _
    show addDays
      (addMonths (addYears birth (differenceInYears birth asOf))
        (differenceInMonths (addYears birth (differenceInYears birth asOf)) asOf))
      (differenceInDays
        (addMonths (addYears birth (differenceInYears birth asOf))
          (differenceInMonths (addYears birth (differenceInYears birth asOf)) asOf)) asOf)
      = asOf
    exact addDays_eq_of_toOrdinal hvm hav (by unfold differenceInDays; ring)

/-- Witness for C7 with a leap-day birth date. -/
theorem C7_witness :
    ageBreakdown ⟨2000, 2, 29⟩ ⟨2024, 3, 1⟩ =
      .ok (intervalToDuration ⟨2000, 2, 29⟩ ⟨2024, 3, 1⟩) ∧
    addDays
      (addMonths (addYears ⟨2000, 2, 29⟩ (intervalToDuration ⟨2000, 2, 29⟩ ⟨2024, 3, 1⟩).years)
        (intervalToDuration ⟨2000, 2, 29⟩ ⟨2024, 3, 1⟩).months)
      (intervalToDuration ⟨2000, 2, 29⟩ ⟨2024, 3, 1⟩).days = ⟨2024, 3, 1⟩ :=
  C7_age_reconstruction ⟨2000, 2, 29⟩ ⟨2024, 3, 1⟩ (by decide) (by decide) (by decide)

/-- C10: when the date-difference form schema allows the pair (end on or
after start), every field of the computed DateDifference is nonnegative. -/
theorem C10_nonnegative_difference (s e : CalendarDate) (hs : ValidDate s)
    (he : ValidDate e) (h : dateDifferenceSchemaOk s e) :
    0 ≤ (computeDateDifference s e).days ∧
    0 ≤ (computeDateDifference s e).weeks ∧
    0 ≤ (computeDateDifference s e).months ∧
    0 ≤ (computeDateDifference s e).years := by
  have hle : dateLe s e := h
  have hd : 0 ≤ differenceInDays s e := by
    have := toOrdinal_le_of_dateLe hs he hle
    unfold differenceInDays
    omega
  refine ⟨hd, ?_, ?_, ?_⟩
  · show 0 ≤ differenceInWeeks s e
    unfold differenceInWeeks truncDiv
    rw [if_pos hd]
    omega
  · show 0 ≤ differenceInMonths s e
    unfold differenceInMonths
    rw [if_pos hle]
    omega
  · show 0 ≤ differenceInYears s e
    unfold differenceInYears
    rw [if_pos hle]
    have hs2 := hs
    rw [validDate_def] at hs2
    obtain ⟨hs3, hs4, hs5, hs6⟩ := hs2
    have he2 := he
    rw [validDate_def] at he2
    obtain ⟨he3, he4, he5, he6⟩ := he2
    have hten : ¬ dateLt e s := (dateLe_iff_not_lt s e).mp hle
    unfold dateLt at hten
    by_cases hmd : mdLt e s
    · rw [if_pos hmd]
      unfold mdLt at hmd
      omega
    · rw [if_neg hmd]
      omega

/-- Witness for C10 on the 400-day pair. -/
theorem C10_witness :
    0 ≤ (computeDateDifference ⟨2024, 1, 1⟩ ⟨2025, 2, 4⟩).days ∧
    0 ≤ (computeDateDifference ⟨2024, 1, 1⟩ ⟨2025, 2, 4⟩).weeks ∧
    0 ≤ (computeDateDifference ⟨2024, 1, 1⟩ ⟨2025, 2, 4⟩).months ∧
    0 ≤ (computeDateDifference ⟨2024, 1, 1⟩ ⟨2025, 2, 4⟩).years :=
  C10_nonnegative_difference ⟨2024, 1, 1⟩ ⟨2025, 2, 4⟩ (by decide) (by decide) (by decide)

end ChronoCalc

namespace ChronoCalc

/-! ## The result-state invariant of the four submit handlers -/

theorem handleDateDifference_single (st : AppState) (h : atMostOneResult st)
    (startDate endDate : Option CalendarDate) :
    atMostOneResult (handleDateDifferenceSubmit st startDate endDate) ∧
    ((handleDateDifferenceSubmit st startDate endDate).dateDifferenceResult.isSome →
      (handleDateDifferenceSubmit st startDate endDate).arithmeticResult = none ∧
      (handleDateDifferenceSubmit st startDate endDate).ageResult = none ∧
      (handleDateDifferenceSubmit st startDate endDate).pregnancyDueDateResult = none) := by
  obtain ⟨dd, ar, ao, ag, pr, cd⟩ := st
  simp only [atMostOneResult, resultCount] at h
  cases startDate <;> cases endDate <;>
    cases dd <;> cases ar <;> cases ag <;> cases pr <;>
    simp_all [handleDateDifferenceSubmit, atMostOneResult, resultCount]

theorem handleDateArithmetic_single (st : AppState) (h : atMostOneResult st)
    (baseDate : Option CalendarDate) (days : Option Int) (op : Operation) :
    atMostOneResult (handleDateArithmeticSubmit st baseDate days op) ∧
    ((handleDateArithmeticSubmit st baseDate days op).arithmeticResult.isSome →
      (handleDateArithmeticSubmit st baseDate days op).dateDifferenceResult = none ∧
      (handleDateArithmeticSubmit st baseDate days op).ageResult = none ∧
      (handleDateArithmeticSubmit st baseDate days op).pregnancyDueDateResult = none) := by
  obtain ⟨dd, ar, ao, ag, pr, cd⟩ := st
  simp only [atMostOneResult, resultCount] at h
  cases baseDate <;> cases days <;>
    cases dd <;> cases ar <;> cases ag <;> cases pr <;>
    simp_all [handleDateArithmeticSubmit, atMostOneResult, resultCount] <;>
    split_ifs <;> simp_all

theorem handleAgeFinder_single (st : AppState) (h : atMostOneResult st)
    (dateOfBirth : Option CalendarDate) :
    atMostOneResult (handleAgeFinderSubmit st dateOfBirth) ∧
    ((handleAgeFinderSubmit st dateOfBirth).ageResult.isSome →
      (handleAgeFinderSubmit st dateOfBirth).dateDifferenceResult = none ∧
      (handleAgeFinderSubmit st dateOfBirth).arithmeticResult = none ∧
      (handleAgeFinderSubmit st dateOfBirth).pregnancyDueDateResult = none) := by
  obtain ⟨dd, ar, ao, ag, pr, cd⟩ := st
  simp only [atMostOneResult, resultCount] at h
  cases cd <;> cases dateOfBirth <;>
    cases dd <;> cases ar <;> cases ag <;> cases pr <;>
    simp_all [handleAgeFinderSubmit, atMostOneResult, resultCount]

theorem handlePregnancy_single (st : AppState) (h : atMostOneResult st)
    (method : Method) (lmp conc ivf : Option CalendarDate) (age : Option EmbryoAge) :
    atMostOneResult (handlePregnancyDueDateSubmit st method lmp conc ivf age) ∧
    ((handlePregnancyDueDateSubmit st method lmp conc ivf age).pregnancyDueDateResult.isSome →
      (handlePregnancyDueDateSubmit st method lmp conc ivf age).dateDifferenceResult = none ∧
      (handlePregnancyDueDateSubmit st method lmp conc ivf age).arithmeticResult = none ∧
      (handlePregnancyDueDateSubmit st method lmp conc ivf age).ageResult = none) := by
  obtain ⟨dd, ar, ao, ag, pr, cd⟩ := st
  cases method <;>
    simp [handlePregnancyDueDateSubmit, atMostOneResult, resultCount] <;>
    cases lmp <;> cases conc <;> cases ivf <;> cases age <;> simp

/-- C9: starting from a state in which at most one of the four result cells
is populated, each of the four submit handlers leaves at most one populated,
and whenever a handler stores its own result the other three result cells
are null. -/
theorem C9_handlers_single_result (st : AppState) (h : atMostOneResult st)
    (startDate endDate baseDate dateOfBirth lmp conc ivf : Option CalendarDate)
    (days : Option Int) (op : Operation) (method : Method) (age : Option EmbryoAge) :
    (atMostOneResult (handleDateDifferenceSubmit st startDate endDate) ∧
      ((handleDateDifferenceSubmit st startDate endDate).dateDifferenceResult.isSome →
        (handleDateDifferenceSubmit st startDate endDate).arithmeticResult = none ∧
        (handleDateDifferenceSubmit st startDate endDate).ageResult = none ∧
        (handleDateDifferenceSubmit st startDate endDate).pregnancyDueDateResult = none)) ∧
    (atMostOneResult (handleDateArithmeticSubmit st baseDate days op) ∧
      ((handleDateArithmeticSubmit st baseDate days op).arithmeticResult.isSome →
        (handleDateArithmeticSubmit st baseDate days op).dateDifferenceResult = none ∧
        (handleDateArithmeticSubmit st baseDate days op).ageResult = none ∧
        (handleDateArithmeticSubmit st baseDate days op).pregnancyDueDateResult = none)) ∧
    (atMostOneResult (handleAgeFinderSubmit st dateOfBirth) ∧
      ((handleAgeFinderSubmit st dateOfBirth).ageResult.isSome →
        (handleAgeFinderSubmit st dateOfBirth).dateDifferenceResult = none ∧
        (handleAgeFinderSubmit st dateOfBirth).arithmeticResult = none ∧
        (handleAgeFinderSubmit st dateOfBirth).pregnancyDueDateResult = none)) ∧
    (atMostOneResult (handlePregnancyDueDateSubmit st method lmp conc ivf age) ∧
      ((handlePregnancyDueDateSubmit st method lmp conc ivf age).pregnancyDueDateResult.isSome →
        (handlePregnancyDueDateSubmit st method lmp conc ivf age).dateDifferenceResult = none ∧
        (handlePregnancyDueDateSubmit st method lmp conc ivf age).arithmeticResult = none ∧
        (handlePregnancyDueDateSubmit st method lmp conc ivf age).ageResult = none)) :=
  ⟨handleDateDifference_single st h startDate endDate,
   handleDateArithmetic_single st h baseDate days op,
   handleAgeFinder_single st h dateOfBirth,
   handlePregnancy_single st h method lmp conc ivf age⟩

end ChronoCalc

namespace ChronoCalc

/-- Witness for C9 at the empty result state with empty form inputs. -/
theorem C9_witness :
    (atMostOneResult
        (handleDateDifferenceSubmit ⟨none, none, none, none, none, none⟩ none none) ∧
      ((handleDateDifferenceSubmit ⟨none, none, none, none, none, none⟩ none
            none).dateDifferenceResult.isSome →
        (handleDateDifferenceSubmit ⟨none, none, none, none, none, none⟩ none
            none).arithmeticResult = none ∧
        (handleDateDifferenceSubmit ⟨none, none, none, none, none, none⟩ none
            none).ageResult = none ∧
        (handleDateDifferenceSubmit ⟨none, none, none, none, none, none⟩ none
            none).pregnancyDueDateResult = none)) ∧
    (atMostOneResult
        (handleDateArithmeticSubmit ⟨none, none, none, none, none, none⟩ none none .add) ∧
      ((handleDateArithmeticSubmit ⟨none, none, none, none, none, none⟩ none none
            .add).arithmeticResult.isSome →
        (handleDateArithmeticSubmit ⟨none, none, none, none, none, none⟩ none none
            .add).dateDifferenceResult = none ∧
        (handleDateArithmeticSubmit ⟨none, none, none, none, none, none⟩ none none
            .add).ageResult = none ∧
        (handleDateArithmeticSubmit ⟨none, none, none, none, none, none⟩ none none
            .add).pregnancyDueDateResult = none)) ∧
    (atMostOneResult (handleAgeFinderSubmit ⟨none, none, none, none, none, none⟩ none) ∧
      ((handleAgeFinderSubmit ⟨none, none, none, none, none, none⟩
            none).ageResult.isSome →
        (handleAgeFinderSubmit ⟨none, none, none, none, none, none⟩
            none).dateDifferenceResult = none ∧
        (handleAgeFinderSubmit ⟨none, none, none, none, none, none⟩
            none).arithmeticResult = none ∧
        (handleAgeFinderSubmit ⟨none, none, none, none, none, none⟩
            none).pregnancyDueDateResult = none)) ∧
    (atMostOneResult
        (handlePregnancyDueDateSubmit ⟨none, none, none, none, none, none⟩ .lmp none none
          none none) ∧
      ((handlePregnancyDueDateSubmit ⟨none, none, none, none, none, none⟩ .lmp none none
            none none).pregnancyDueDateResult.isSome →
        (handlePregnancyDueDateSubmit ⟨none, none, none, none, none, none⟩ .lmp none none
            none none).dateDifferenceResult = none ∧
        (handlePregnancyDueDateSubmit ⟨none, none, none, none, none, none⟩ .lmp none none
            none none).arithmeticResult = none ∧
        (handlePregnancyDueDateSubmit ⟨none, none, none, none, none, none⟩ .lmp none none
            none none).ageResult = none)) :=
  C9_handlers_single_result ⟨none, none, none, none, none, none⟩ (by decide)
    none none none none none none none none .add .lmp none

end ChronoCalc
